import Mathlib

/-!
# Verification of the bip322-js binary codecs

Shallow embedding of the repository's binary codecs and proofs about them:

* `VarInt` — Bitcoin's variable-length integer codec (`src` class `VarInt`,
  methods `encode`/`decode`, helpers `readUInt16LE`, `readUInt32LE`,
  `readUIntLE`).
* `VarStr` — length-prefixed byte strings (modelled from the spec, the
  source file is not part of the provided sources).
* `Witness` — witness-stack serialization (`src/helpers/Witness.ts`).
* `decodeScriptSignature` / `decode2` / `fromDER` — strict-DER ECDSA
  signature decoding, the `src/bitcoinjs` module (the segment appended to
  `test/helpers/BufferUtil.test.ts` in the provided sources), itself taken
  from bitcoinjs-lib's `script_signature.ts`.

Byte buffers (`Uint8Array` values) are embedded as `List ℕ`, every element
a byte value `< 256` whenever it originates from real code (the encoders
only ever produce values `< 256`; the decoders read whatever they are
given, just as the JavaScript does).  JavaScript numbers that the codecs
produce are exact integers (all magnitudes stay below `2 ^ 48 < 2 ^ 53`),
except that an out-of-bounds `Uint8Array` read yields `undefined` and
arithmetic on it yields `NaN`; the type `JSNum` makes that distinction
explicit.  Exceptions (`throw new Error(...)` and `RangeError` from
`DataView` accessors) are embedded as `Except` errors.
-/

/-- The error conditions the VarInt/VarStr/Witness code can raise:
`Error('Empty buffer provided')`, the `RangeError` thrown by `DataView`
accessors on an out-of-bounds read, and `Error('Integer too large: ...')`. -/
inductive VarIntError where
  | emptyInput
  | truncatedInput
  | valueTooLarge
deriving DecidableEq, Repr

/-- A JavaScript number as produced by the decoders: either an exact
integer (every in-range value is below `2 ^ 48 < 2 ^ 53`, hence exact in a
JS double) or `NaN` (the result of arithmetic on an `undefined` read from
an out-of-bounds `Uint8Array` index). -/
inductive JSNum where
  | nan
  | int (n : ℕ)
deriving DecidableEq, Repr

/-- Embeds `readUInt16LE` from the VarInt source file: a
`DataView.getUint16(offset, true)` over the buffer.  The `DataView`
accessor throws a `RangeError` when `offset + 2` exceeds the view's
byte length; otherwise it returns the two bytes little-endian. -/
def readUInt16LE (b : List ℕ) (offset : ℕ) : Except VarIntError ℕ :=
  if offset + 2 ≤ b.length then
    .ok (b.getD offset 0 + 256 * b.getD (offset + 1) 0)
  else
    .error .truncatedInput

/-- Embeds `readUInt32LE` from the VarInt source file: a
`DataView.getUint32(offset, true)`, throwing `RangeError` when fewer than
4 bytes remain past `offset`. -/
def readUInt32LE (b : List ℕ) (offset : ℕ) : Except VarIntError ℕ :=
  if offset + 4 ≤ b.length then
    .ok (b.getD offset 0 + 256 * b.getD (offset + 1) 0
         + 256 ^ 2 * b.getD (offset + 2) 0 + 256 ^ 3 * b.getD (offset + 3) 0)
  else
    .error .truncatedInput

/-- The accumulation loop of the source's hand-written `readUIntLE`:
`value += buffer[offset + i] * multiplier` for `i = 0 .. len - 1` with
`multiplier = 256 ^ i`.  An index past the end of a `Uint8Array` reads
`undefined`, and `undefined * multiplier` is `NaN`, which then propagates
through every further addition; `none` stands for that `NaN` outcome. -/
def readUIntLEAux (b : List ℕ) (offset : ℕ) : ℕ → Option ℕ
  | 0 => some 0
  | n + 1 =>
    match readUIntLEAux b offset n, b.get? (offset + n) with
    | some v, some byte => some (v + byte * 256 ^ n)
    | _, _ => none

/-- Embeds the source's hand-written `readUIntLE(buffer, offset, length)`.
Unlike the `DataView` accessors it performs no bounds check: when the
buffer is too short the result is `NaN`, returned as an ordinary value. -/
def readUIntLE (b : List ℕ) (offset len : ℕ) : JSNum :=
  match readUIntLEAux b offset len with
  | some v => .int v
  | none => .nan

namespace VarInt

/-- Embeds `VarInt.encode(i)`.  The input is an arbitrary integer (the
JavaScript parameter is any `number`; the spec's precondition of
non-negativity is not checked by the code).  Branches, in source order:

* `i < 0xFD`: a 1-byte buffer; the `Uint8Array` element assignment
  `buffer[0] = i` stores `ToUint8(i) = i mod 2^8` (non-negative residue).
* `i < 0x10000`: `0xFD` then `setUint16(1, i, true)`, which stores
  `i mod 2^16` as two little-endian bytes.
* `i < 0x100000000`: `0xFE` then `setUint32(1, i, true)`, storing
  `i mod 2^32` as four little-endian bytes.
* `i < 0x1000000000000`: `0xFF`, then a 6-iteration loop emitting
  `value & 0xff` and dividing by 256 (six little-endian bytes of `i`),
  then two explicit zero bytes.
* otherwise: `throw new Error('Integer too large: ...')`. -/
def encode (i : ℤ) : Except VarIntError (List ℕ) :=
  if i < 0xFD then
    .ok [(i % 256).toNat]
  else if i < 0x10000 then
    let n := i.toNat % 2 ^ 16
    .ok [0xfd, n % 256, n / 256 % 256]
  else if i < 0x100000000 then
    let n := i.toNat % 2 ^ 32
    .ok [0xfe, n % 256, n / 256 % 256, n / 256 ^ 2 % 256, n / 256 ^ 3 % 256]
  else if i < 0x1000000000000 then
    let n := i.toNat
    .ok [0xff, n % 256, n / 256 % 256, n / 256 ^ 2 % 256, n / 256 ^ 3 % 256,
         n / 256 ^ 4 % 256, n / 256 ^ 5 % 256, 0, 0]
  else
    .error .valueTooLarge

/-- Embeds `VarInt.decode(b)`.  An empty buffer throws
`Error('Empty buffer provided')`; otherwise the first byte is read and
dispatched on the three tag values, exactly as in the source. -/
def decode (b : List ℕ) : Except VarIntError JSNum :=
  if b.length = 0 then
    .error .emptyInput
  else
    let i := b.getD 0 0
    if i = 0xfd then
      (readUInt16LE b 1).map .int
    else if i = 0xfe then
      (readUInt32LE b 1).map .int
    else if i = 0xff then
      .ok (readUIntLE b 1 6)
    else
      .ok (.int i)

end VarInt

/-! ## Per-tier decode lemmas

Each lemma decodes a buffer whose shape is the one the corresponding
`encode` branch produces, with an arbitrary unread tail appended, so the
composite codecs (VarStr, Witness) can reuse them mid-stream. -/

theorem VarInt.decode_cons_small (x : ℕ) (rest : List ℕ) (hx : x < 0xFD) :
    VarInt.decode (x :: rest) = .ok (.int x) := by
  unfold VarInt.decode
  simp only [List.length_cons, List.getD_cons_zero]
  rw [if_neg (by omega), if_neg (by omega), if_neg (by omega), if_neg (by omega)]

theorem VarInt.decode_cons_fd (x y : ℕ) (rest : List ℕ) :
    VarInt.decode (0xfd :: x :: y :: rest) = .ok (.int (x + 256 * y)) := by
  unfold VarInt.decode readUInt16LE
  simp only [List.length_cons, List.getD_cons_zero, List.getD_cons_succ]
  rw [if_neg (by omega), if_pos trivial, if_pos (by omega)]
  rfl

theorem VarInt.decode_cons_fe (x y z w : ℕ) (rest : List ℕ) :
    VarInt.decode (0xfe :: x :: y :: z :: w :: rest)
      = .ok (.int (x + 256 * y + 256 ^ 2 * z + 256 ^ 3 * w)) := by
  unfold VarInt.decode readUInt32LE
  simp only [List.length_cons, List.getD_cons_zero, List.getD_cons_succ]
  rw [if_neg (by omega), if_neg (by omega), if_pos trivial, if_pos (by omega)]
  rfl

theorem VarInt.decode_cons_ff (b1 b2 b3 b4 b5 b6 : ℕ) (rest : List ℕ) :
    VarInt.decode (0xff :: b1 :: b2 :: b3 :: b4 :: b5 :: b6 :: rest)
      = .ok (.int (b1 + 256 * b2 + 256 ^ 2 * b3 + 256 ^ 3 * b4
                   + 256 ^ 4 * b5 + 256 ^ 5 * b6)) := by
  unfold VarInt.decode
  simp only [List.length_cons, List.getD_cons_zero]
  rw [if_neg (by omega), if_neg (by omega), if_neg (by omega), if_pos trivial]
  have : readUIntLE (0xff :: b1 :: b2 :: b3 :: b4 :: b5 :: b6 :: rest) 1 6
      = .int (0 + b1 * 256 ^ 0 + b2 * 256 ^ 1 + b3 * 256 ^ 2 + b4 * 256 ^ 3
              + b5 * 256 ^ 4 + b6 * 256 ^ 5) := rfl
  rw [this]
  congr 2
  ring

/-! ## VarInt round-trip -/

/-- Encoding a value in range succeeds, the encoding has the tier's byte
length, and decoding reads the value back regardless of any unread tail. -/
theorem VarInt.encode_decode_varint (i : ℕ) (h : i < 0x1000000000000) :
    ∃ bs : List ℕ, VarInt.encode (i : ℤ) = .ok bs ∧
      bs.length = (if i < 0xFD then 1 else if i < 0x10000 then 3
                   else if i < 0x100000000 then 5 else 9) ∧
      ∀ rest : List ℕ, VarInt.decode (bs ++ rest) = .ok (.int i) := by
  by_cases h1 : i < 0xFD
  · refine ⟨[i], ?_, by simp [h1], fun rest => VarInt.decode_cons_small i rest h1⟩
    unfold VarInt.encode
    rw [if_pos (by exact_mod_cast h1)]
    have : ((i : ℤ) % 256).toNat = i := by omega
    rw [this]
  · by_cases h2 : i < 0x10000
    · refine ⟨[0xfd, i % 2 ^ 16 % 256, i % 2 ^ 16 / 256 % 256], ?_, by simp [h1, h2], ?_⟩
      · unfold VarInt.encode
        rw [if_neg (by exact_mod_cast h1), if_pos (by exact_mod_cast h2)]
        simp only [Int.toNat_natCast]
      · intro rest
        rw [List.cons_append, List.cons_append, List.cons_append,
            VarInt.decode_cons_fd]
        congr 2
        omega
    · by_cases h3 : i < 0x100000000
      · refine ⟨[0xfe, i % 2 ^ 32 % 256, i % 2 ^ 32 / 256 % 256,
                 i % 2 ^ 32 / 256 ^ 2 % 256, i % 2 ^ 32 / 256 ^ 3 % 256],
                ?_, by simp [h1, h2, h3], ?_⟩
        · unfold VarInt.encode
          rw [if_neg (by exact_mod_cast h1), if_neg (by exact_mod_cast h2),
              if_pos (by exact_mod_cast h3)]
          simp only [Int.toNat_natCast]
        · intro rest
          simp only [List.cons_append, VarInt.decode_cons_fe]
          congr 2
          omega
      · refine ⟨[0xff, i % 256, i / 256 % 256, i / 256 ^ 2 % 256, i / 256 ^ 3 % 256,
                 i / 256 ^ 4 % 256, i / 256 ^ 5 % 256, 0, 0],
                ?_, by simp [h1, h2, h3], ?_⟩
        · unfold VarInt.encode
          rw [if_neg (by exact_mod_cast h1), if_neg (by exact_mod_cast h2),
              if_neg (by exact_mod_cast h3), if_pos (by exact_mod_cast h)]
          simp only [Int.toNat_natCast]
        · intro rest
          simp only [List.cons_append, VarInt.decode_cons_ff]
          congr 2
          omega

/-- C1: for every integer `i` with `0 ≤ i < 0x1000000000000`,
`VarInt.decode (VarInt.encode i) = i`, and the byte length of the encoding
is exactly 1 when `i < 0xFD`, 3 when `0xFD ≤ i < 0x10000`, 5 when
`0x10000 ≤ i < 0x100000000`, and 9 when `0x100000000 ≤ i <
0x1000000000000`; each threshold is strict, so every boundary value takes
the next tier. -/
theorem varint_roundtrip (i : ℕ) (h : i < 0x1000000000000) :
    ∃ bs : List ℕ, VarInt.encode (i : ℤ) = .ok bs ∧
      VarInt.decode bs = .ok (.int i) ∧
      bs.length = (if i < 0xFD then 1 else if i < 0x10000 then 3
                   else if i < 0x100000000 then 5 else 9) := by
  obtain ⟨bs, he, hlen, hdec⟩ := VarInt.encode_decode_varint i h
  exact ⟨bs, he, by simpa using hdec [], hlen⟩

/-- Witness for C1 at the boundary value `i = 0xFD` (first value of the
3-byte tier). -/
theorem varint_roundtrip_witness :
    ∃ bs : List ℕ, VarInt.encode ((0xFD : ℕ) : ℤ) = .ok bs ∧
      VarInt.decode bs = .ok (.int 0xFD) ∧
      bs.length = (if (0xFD : ℕ) < 0xFD then 1 else if (0xFD : ℕ) < 0x10000 then 3
                   else if (0xFD : ℕ) < 0x100000000 then 5 else 9) :=
  varint_roundtrip 0xFD (by norm_num)

/-! ## VarInt error behaviour -/

/-- C3: for a non-negative input, `VarInt.encode i` fails (with the
`Integer too large` error) if and only if `i ≥ 0x1000000000000`; every
non-negative integer below that bound is encoded without error. -/
theorem varint_encode_valueTooLarge_iff (i : ℤ) (h : 0 ≤ i) :
    (VarInt.encode i = .error .valueTooLarge ↔ 0x1000000000000 ≤ i) ∧
      (i < 0x1000000000000 → ∃ bs : List ℕ, VarInt.encode i = .ok bs) := by
  unfold VarInt.encode
  by_cases h1 : i < 0xFD
  · rw [if_pos h1]
    exact ⟨⟨fun hc => (nomatch hc), fun hge => absurd hge (by omega)⟩, fun _ => ⟨_, rfl⟩⟩
  · rw [if_neg h1]
    by_cases h2 : i < 0x10000
    · rw [if_pos h2]
      exact ⟨⟨fun hc => (nomatch hc), fun hge => absurd hge (by omega)⟩, fun _ => ⟨_, rfl⟩⟩
    · rw [if_neg h2]
      by_cases h3 : i < 0x100000000
      · rw [if_pos h3]
        exact ⟨⟨fun hc => (nomatch hc), fun hge => absurd hge (by omega)⟩, fun _ => ⟨_, rfl⟩⟩
      · rw [if_neg h3]
        by_cases h4 : i < 0x1000000000000
        · rw [if_pos h4]
          exact ⟨⟨fun hc => (nomatch hc), fun hge => absurd hge (by omega)⟩,
                 fun _ => ⟨_, rfl⟩⟩
        · rw [if_neg h4]
          exact ⟨⟨fun _ => by omega, fun _ => rfl⟩, fun hlt => absurd hlt h4⟩

/-- Witness for C3 at `i = 0x1000000000000` (the smallest failing value). -/
theorem varint_encode_valueTooLarge_iff_witness :
    (VarInt.encode 0x1000000000000 = .error .valueTooLarge ↔
       (0x1000000000000 : ℤ) ≤ 0x1000000000000) ∧
      ((0x1000000000000 : ℤ) < 0x1000000000000 →
        ∃ bs : List ℕ, VarInt.encode 0x1000000000000 = .ok bs) :=
  varint_encode_valueTooLarge_iff 0x1000000000000 (by norm_num)

/-- C2 evidence: on a buffer that carries the `0xFF` tag but fewer than
the 6 payload bytes the tier requires, `VarInt.decode` does *not* fail —
the hand-written `readUIntLE` reads past the end of the buffer
(`undefined`), the arithmetic turns that into `NaN`, and `NaN` is returned
as a normal value.  In contrast the `0xFD`/`0xFE` tiers go through
`DataView` accessors and do throw on short buffers, and the empty buffer
is rejected explicitly. -/
theorem varint_decode_truncated_ff_is_nan :
    VarInt.decode [0xff] = .ok .nan ∧
      VarInt.decode [0xff, 1, 2, 3, 4, 5] = .ok .nan ∧
      VarInt.decode [0xfd] = .error .truncatedInput ∧
      VarInt.decode [0xfd, 1] = .error .truncatedInput ∧
      VarInt.decode [0xfe, 1, 2, 3] = .error .truncatedInput ∧
      VarInt.decode [] = .error .emptyInput :=
  ⟨rfl, rfl, rfl, rfl, rfl, rfl⟩

/-- C10: a negative input is below the `0xFD` threshold, so `encode` does
not fail: it takes the one-byte branch and stores the input reduced
modulo 256 (JavaScript's `ToUint8`).  No successful decode of that byte
can return the original negative value, so the round-trip fails outside
the non-negative precondition. -/
theorem varint_encode_negative (i : ℤ) (h : i < 0) :
    VarInt.encode i = .ok [(i % 256).toNat] ∧
      ∀ n : ℕ, VarInt.decode [(i % 256).toNat] = .ok (.int n) → (n : ℤ) ≠ i := by
  refine ⟨?_, ?_⟩
  · unfold VarInt.encode
    rw [if_pos (by omega)]
  · intro n _ hn
    omega

/-- Witness for C10 at `i = -1`: `encode(-1)` succeeds and yields the
single byte `0xFF`. -/
theorem varint_encode_negative_witness :
    (VarInt.encode (-1) = .ok [((-1 : ℤ) % 256).toNat] ∧
      ∀ n : ℕ, VarInt.decode [((-1 : ℤ) % 256).toNat] = .ok (.int n) →
        (n : ℤ) ≠ -1) ∧
      ((-1 : ℤ) % 256).toNat = 0xFF :=
  ⟨varint_encode_negative (-1) (by norm_num), by decide⟩

/-! ## VarStr and Witness -/

namespace VarStr

/-- Modelled from the spec: the `VarStr` source file (`VarStr.ts`) is not
among the provided sources, only its importer `Witness.ts` is.  Spec §4.2:
"**encode(bytes)** → VarInt(length) ++ bytes."  The length prefix is
produced by `VarInt.encode`, which can only fail for lengths
`≥ 0x1000000000000`. -/
def encode (s : List ℕ) : Except VarIntError (List ℕ) := do
  let hdr ← VarInt.encode (s.length : ℤ)
  pure (hdr ++ s)

/-- Modelled from the spec: the `VarStr` source file is not among the
provided sources.  Spec §4.2: "**decode(buffer)** → bytes: decode a VarInt
giving `(len, headerSize)`; fails with `TruncatedInput` if fewer than
`headerSize + len` bytes remain; returns the `len` bytes following the
header."  Per §9 the header size is re-derived by re-encoding the decoded
length, as `Witness.deserialize` also does.  A `NaN` length (possible only
on a buffer too short for its own length prefix) is treated as the
truncation failure the spec prescribes for short buffers. -/
def decode (b : List ℕ) : Except VarIntError (List ℕ) := do
  match ← VarInt.decode b with
  | .nan => .error .truncatedInput
  | .int len => do
    let hdr ← VarInt.encode (len : ℤ)
    if b.length < hdr.length + len then
      .error .truncatedInput
    else
      pure ((b.drop hdr.length).take len)

end VarStr

namespace Witness

/-- Embeds `Witness.serialize` (`src/helpers/Witness.ts`): start from
`VarInt.encode(witnesses.length)` and append `VarStr.encode(witness)` for
each witness in order (the source's `forEach` with an accumulating
`witnessStack`).  The base64 presentation at the external boundary is an
out-of-scope collaborator (`BufferUtil.toBase64`); the raw byte stack is
the value serialized. -/
def serialize (witnesses : List (List ℕ)) : Except VarIntError (List ℕ) := do
  let init ← VarInt.encode (witnesses.length : ℤ)
  witnesses.foldlM
    (fun witnessStack w => do
      let e ← VarStr.encode w
      pure (witnessStack ++ e))
    init

/-- The `for (let i = 0; i < witnessCount; i++)` loop of
`Witness.deserialize`: read a VarStr, push it, then slice off
`VarStr.encode(witness).byteLength` bytes before the next iteration.  The
accumulator mirrors the source's `witnessDecoded.push`. -/
def deserializeLoop : ℕ → List ℕ → List (List ℕ) → Except VarIntError (List (List ℕ))
  | 0, _, acc => .ok acc.reverse
  | n + 1, buf, acc => do
    let w ← VarStr.decode buf
    let e ← VarStr.encode w
    deserializeLoop n (buf.drop e.length) (w :: acc)

/-- Embeds `Witness.deserialize` on raw bytes (the `Uint8Array` branch of
the source; the base64 branch differs only by the out-of-scope
`BufferUtil.fromBase64` preprocessing).  A VarInt is decoded to obtain the
witness count, the count is re-encoded to find how many header bytes to
slice off, and then the loop reads that many VarStr items.  A `NaN` count
(a buffer shorter than its own `0xFF`-tagged count prefix) fails every
JavaScript `<` comparison in `VarInt.encode`, which therefore reaches its
final branch and throws `Integer too large: NaN`. -/
def deserialize (b : List ℕ) : Except VarIntError (List (List ℕ)) := do
  match ← VarInt.decode b with
  | .nan => .error .valueTooLarge
  | .int witnessCount => do
    let hdr ← VarInt.encode (witnessCount : ℤ)
    deserializeLoop witnessCount (b.drop hdr.length) []

end Witness

/-- Reduction of a monadic bind whose first action already succeeded. -/
theorem exceptOkBind {ε α β : Type} (x : α) (f : α → Except ε β) :
    (Except.ok x >>= f) = f x := rfl

/-- `pure` for `Except` is `Except.ok`. -/
theorem exceptPure {ε α : Type} (x : α) : (pure x : Except ε α) = Except.ok x := rfl

/-- A VarStr whose payload length is in VarInt range encodes successfully,
and decoding the encoding reads the payload back regardless of any unread
tail. -/
theorem VarStr.encode_decode_varstr (s : List ℕ) (h : s.length < 0x1000000000000) :
    ∃ e : List ℕ, VarStr.encode s = .ok e ∧
      ∀ rest : List ℕ, VarStr.decode (e ++ rest) = .ok s := by
  obtain ⟨hdr, henc, _, hdec⟩ := VarInt.encode_decode_varint s.length h
  refine ⟨hdr ++ s, ?_, ?_⟩
  · unfold VarStr.encode
    rw [henc, exceptOkBind, exceptPure]
  · intro rest
    unfold VarStr.decode
    rw [List.append_assoc, hdec (s ++ rest), exceptOkBind]
    show (do
      let hdr' ← VarInt.encode ((s.length : ℕ) : ℤ)
      if (hdr ++ (s ++ rest)).length < hdr'.length + s.length then
        Except.error VarIntError.truncatedInput
      else
        pure (((hdr ++ (s ++ rest)).drop hdr'.length).take s.length))
      = Except.ok s
    rw [henc, exceptOkBind,
        if_neg (by simp only [List.length_append]; omega),
        List.drop_left, List.take_left, exceptPure]

/-- The serialize fold and the deserialize loop are inverse on any list of
witnesses whose lengths are in VarInt range: the fold appends a fixed byte
string `catE` to whatever stack it starts from, and the loop reads the
witnesses back from `catE` regardless of trailing bytes and of the
accumulator it starts from. -/
theorem Witness.serialize_deserialize_loop (items : List (List ℕ))
    (hw : ∀ w ∈ items, w.length < 0x1000000000000) :
    ∃ catE : List ℕ,
      (∀ init : List ℕ,
        items.foldlM
          (fun witnessStack w => do
            let e ← VarStr.encode w
            pure (witnessStack ++ e))
          init = .ok (init ++ catE)) ∧
      (∀ (extra : List ℕ) (acc : List (List ℕ)),
        Witness.deserializeLoop items.length (catE ++ extra) acc
          = .ok (acc.reverse ++ items)) := by
  induction items with
  | nil =>
    refine ⟨[], fun init => ?_, fun extra acc => ?_⟩
    · simp only [List.foldlM_nil, List.append_nil, exceptPure]
    · simp only [List.length_nil, Witness.deserializeLoop, List.append_nil]
  | cons w ws ih =>
    obtain ⟨e, hee, hed⟩ := VarStr.encode_decode_varstr w (hw w (by simp))
    obtain ⟨catE, hfold, hloop⟩ := ih fun x hx => hw x (List.mem_cons_of_mem w hx)
    refine ⟨e ++ catE, fun init => ?_, fun extra acc => ?_⟩
    · rw [List.foldlM_cons, hee, exceptOkBind, exceptPure, exceptOkBind,
          hfold (init ++ e), List.append_assoc]
    · have hsucc : (w :: ws).length = ws.length + 1 := rfl
      rw [hsucc, List.append_assoc]
      show (do
        let w' ← VarStr.decode (e ++ (catE ++ extra))
        let e' ← VarStr.encode w'
        Witness.deserializeLoop ws.length ((e ++ (catE ++ extra)).drop e'.length)
          (w' :: acc))
        = Except.ok (acc.reverse ++ w :: ws)
      rw [hed (catE ++ extra), exceptOkBind, hee, exceptOkBind, List.drop_left,
          hloop extra (w :: acc), List.reverse_cons, List.append_assoc,
          List.singleton_append]

/-- C4: for every finite ordered list of byte strings (the empty list,
duplicates, zero-length items and items of length ≥ 253 included, their
lengths being in VarInt range as every `Uint8Array` length is),
deserializing the serialized witness stack returns the same list,
element-by-element and in order; in particular the empty list serializes
to the single VarInt byte `0`. -/
theorem witness_serialize_roundtrip (items : List (List ℕ))
    (hn : items.length < 0x1000000000000)
    (hw : ∀ w ∈ items, w.length < 0x1000000000000) :
    ∃ bs : List ℕ, Witness.serialize items = .ok bs ∧
      Witness.deserialize bs = .ok items ∧ (items = [] → bs = [0]) := by
  obtain ⟨hdr, henc, _, hdec⟩ := VarInt.encode_decode_varint items.length hn
  obtain ⟨catE, hfold, hloop⟩ := Witness.serialize_deserialize_loop items hw
  refine ⟨hdr ++ catE, ?_, ?_, ?_⟩
  · unfold Witness.serialize
    rw [henc, exceptOkBind]
    exact hfold hdr
  · unfold Witness.deserialize
    rw [hdec catE, exceptOkBind]
    show (do
      let hdr' ← VarInt.encode ((items.length : ℕ) : ℤ)
      Witness.deserializeLoop items.length ((hdr ++ catE).drop hdr'.length) [])
      = Except.ok items
    rw [henc, exceptOkBind, List.drop_left]
    have := hloop [] []
    rw [List.append_nil] at this
    simpa using this
  · intro hnil
    subst hnil
    have h0 : VarInt.encode ((([] : List (List ℕ)).length : ℕ) : ℤ) = .ok [0] := rfl
    have hhdr : hdr = [0] := by
      have := henc.symm.trans h0
      exact Except.ok.inj this
    have hcat : catE = [] := by
      have h1 := hfold []
      simp only [List.foldlM_nil, exceptPure, List.nil_append] at h1
      exact (Except.ok.inj h1).symm
    rw [hhdr, hcat, List.append_nil]

/-- Witness for C4 at `items = [[5], []]` (a duplicate-free two-item stack
with a zero-length item). -/
theorem witness_serialize_roundtrip_witness :
    ∃ bs : List ℕ, Witness.serialize [[5], []] = .ok bs ∧
      Witness.deserialize bs = .ok [[5], []] ∧
      (([[5], []] : List (List ℕ)) = [] → bs = [0]) :=
  witness_serialize_roundtrip [[5], []] (by decide) (by decide)

/-- C5: appending arbitrary trailing bytes after the raw witness encoding
neither disturbs the decoded items nor causes an error — the declared
count bounds what `deserialize` reads, and nothing after it is looked at. -/
theorem witness_deserialize_trailing (items : List (List ℕ))
    (hn : items.length < 0x1000000000000)
    (hw : ∀ w ∈ items, w.length < 0x1000000000000) (extra : List ℕ) :
    ∃ bs : List ℕ, Witness.serialize items = .ok bs ∧
      Witness.deserialize (bs ++ extra) = .ok items := by
  obtain ⟨hdr, henc, _, hdec⟩ := VarInt.encode_decode_varint items.length hn
  obtain ⟨catE, hfold, hloop⟩ := Witness.serialize_deserialize_loop items hw
  refine ⟨hdr ++ catE, ?_, ?_⟩
  · unfold Witness.serialize
    rw [henc, exceptOkBind]
    exact hfold hdr
  · unfold Witness.deserialize
    rw [List.append_assoc, hdec (catE ++ extra), exceptOkBind]
    show (do
      let hdr' ← VarInt.encode ((items.length : ℕ) : ℤ)
      Witness.deserializeLoop items.length
        ((hdr ++ (catE ++ extra)).drop hdr'.length) [])
      = Except.ok items
    rw [henc, exceptOkBind, List.drop_left]
    simpa using hloop extra []

/-- Witness for C5 at `items = [[7]]` with trailing garbage `[9, 9]`. -/
theorem witness_deserialize_trailing_witness :
    ∃ bs : List ℕ, Witness.serialize [[7]] = .ok bs ∧
      Witness.deserialize (bs ++ [9, 9]) = .ok [[7]] :=
  witness_deserialize_trailing [[7]] (by decide) (by decide) [9, 9]


/-! ## Strict-DER signature decoding

`decodeScriptSignature`, `decode2` and `fromDER` embed the `src/bitcoinjs`
module (the segment appended to `test/helpers/BufferUtil.test.ts` in the
provided sources), which the repository took from bitcoinjs-lib's
`script_signature.ts` and which the `DecodeScriptSignature` test driver
imports as `'../../src/bitcoinjs'`. -/

/-- One constructor per distinct `throw new Error(...)` in the module:
`Invalid hashType`, `DER sequence length is too short` / `... too long`,
`Expected DER sequence`, `DER sequence length is invalid`,
`Expected DER integer` / `... (2)`, `R length is zero` /
`R length is too long`, `S length is zero` / `S length is invalid`,
`R value is negative` / `R value excessively padded`, and the two
analogous S errors. -/
inductive DERError where
  | invalidHashType
  | tooShort
  | tooLong
  | expectedSequence
  | invalidSequenceLength
  | expectedInteger
  | rLengthZero
  | rLengthTooLong
  | expectedInteger2
  | sLengthZero
  | sLengthInvalid
  | rNegative
  | rExcessivelyPadded
  | sNegative
  | sExcessivelyPadded
deriving DecidableEq, Repr

/-- Embeds the module's `ScriptSignature` interface: a 64-byte raw
signature and the hash-type byte. -/
structure ScriptSignature where
  signature : List ℕ
  hashType : ℕ
deriving DecidableEq, Repr

/-- Embeds `fromDER(x)`: strip one leading `0x00` byte if present
(`data[0] === 0x00` is false for an empty array, whose read gives
`undefined`, hence the default `1` here), keep only the trailing 32 bytes
when longer (`data.subarray(data.length - 32)`), and place the result at
offset `32 - trimmed.length` of a zero-filled 32-byte buffer. -/
def fromDER (x : List ℕ) : List ℕ :=
  let data := if x.headD 1 = 0 then x.tail else x
  let trimmed := if 32 < data.length then data.drop (data.length - 32) else data
  List.replicate (32 - trimmed.length) 0 ++ trimmed

/-- Embeds `decode2(buffer)`: the BIP66 structural validation chain, each
check throwing its own error, in source order.  The final result keeps the
source's exact extents: `r = buffer.subarray(4, 4 + lenR)` and
`s = buffer.subarray(6 + lenR)` (no end bound — it runs to the end of the
buffer, which the `S length is invalid` check has pinned to `lenS` bytes).
JavaScript's truthiness test `buffer[4] & 0x80` is `≠ 0` on the mask. -/
def decode2 (buffer : List ℕ) : Except DERError (List ℕ × List ℕ) :=
  if buffer.length < 8 then .error .tooShort
  else if 72 < buffer.length then .error .tooLong
  else if buffer.getD 0 0 ≠ 0x30 then .error .expectedSequence
  else if buffer.getD 1 0 ≠ buffer.length - 2 then .error .invalidSequenceLength
  else if buffer.getD 2 0 ≠ 0x02 then .error .expectedInteger
  else
    let lenR := buffer.getD 3 0
    if lenR = 0 then .error .rLengthZero
    else if 5 + lenR ≥ buffer.length then .error .rLengthTooLong
    else if buffer.getD (4 + lenR) 0 ≠ 0x02 then .error .expectedInteger2
    else
      let lenS := buffer.getD (5 + lenR) 0
      if lenS = 0 then .error .sLengthZero
      else if 6 + lenR + lenS ≠ buffer.length then .error .sLengthInvalid
      else if buffer.getD 4 0 &&& 0x80 ≠ 0 then .error .rNegative
      else if 1 < lenR ∧ buffer.getD 4 0 = 0 ∧ buffer.getD 5 0 &&& 0x80 = 0 then
        .error .rExcessivelyPadded
      else if buffer.getD (lenR + 6) 0 &&& 0x80 ≠ 0 then .error .sNegative
      else if 1 < lenS ∧ buffer.getD (lenR + 6) 0 = 0 ∧
          buffer.getD (lenR + 7) 0 &&& 0x80 = 0 then
        .error .sExcessivelyPadded
      else
        .ok ((buffer.drop 4).take lenR, buffer.drop (6 + lenR))

/-- Embeds `decodeScriptSignature(buffer)`: read the trailing byte
(`buffer[buffer.length - 1]`; on an empty buffer the read is `undefined`
and `undefined & ~0x80` is `ToInt32(NaN) & ~0x80 = 0`, which the default
`0` of `getLastD` reproduces), range-check `hashType & ~0x80` (JavaScript
evaluates `~0x80` over 32 bits, giving the mask `0xFFFFFF7F`), then run
`decode2` on the buffer minus its trailing byte (`subarray(0, -1)`),
normalize both halves with `fromDER`, and return their concatenation with
the unmodified `hashType`. -/
def decodeScriptSignature (buffer : List ℕ) : Except DERError ScriptSignature :=
  let hashType := buffer.getLastD 0
  let hashTypeMod := hashType &&& 0xFFFFFF7F
  if hashTypeMod ≤ 0 ∨ 4 ≤ hashTypeMod then
    .error .invalidHashType
  else do
    let decoded ← decode2 buffer.dropLast
    let r := fromDER decoded.1
    let s := fromDER decoded.2
    let signature := r ++ s
    pure ⟨signature, hashType⟩

/-- Reduction of a monadic bind whose first action already failed. -/
theorem exceptErrBind {ε α β : Type} (e : ε) (f : α → Except ε β) :
    ((Except.error e : Except ε α) >>= f) = .error e := rfl

/-- Two distinct `DERError`s give distinct `Except.error` results. -/
theorem derErrNe {α : Type} {e e' : DERError} (h : e ≠ e') :
    (Except.error e : Except DERError α) ≠ .error e' :=
  fun hc => h (Except.error.inj hc)

/-- `fromDER` always yields exactly 32 bytes. -/
theorem fromDER_length (x : List ℕ) : (fromDER x).length = 32 := by
  simp only [fromDER]
  generalize (if x.headD 1 = 0 then x.tail else x) = data
  by_cases hl : 32 < data.length
  · rw [if_pos hl]
    simp only [List.length_append, List.length_replicate, List.length_drop]
    omega
  · rw [if_neg hl]
    simp only [List.length_append, List.length_replicate]
    omega

/-- `decode2` never raises the hash-type error: that check lives in
`decodeScriptSignature`, before `decode2` is called. -/
theorem decode2_ne_invalidHashType (p : List ℕ) :
    decode2 p ≠ .error .invalidHashType := by
  unfold decode2
  by_cases h1 : p.length < 8
  · rw [if_pos h1]
    exact derErrNe (by decide)
  rw [if_neg h1]
  by_cases h2 : 72 < p.length
  · rw [if_pos h2]
    exact derErrNe (by decide)
  rw [if_neg h2]
  by_cases h3 : p.getD 0 0 ≠ 0x30
  · rw [if_pos h3]
    exact derErrNe (by decide)
  rw [if_neg h3]
  by_cases h4 : p.getD 1 0 ≠ p.length - 2
  · rw [if_pos h4]
    exact derErrNe (by decide)
  rw [if_neg h4]
  by_cases h5 : p.getD 2 0 ≠ 0x02
  · rw [if_pos h5]
    exact derErrNe (by decide)
  rw [if_neg h5]
  by_cases h6 : p.getD 3 0 = 0
  · rw [if_pos h6]
    exact derErrNe (by decide)
  rw [if_neg h6]
  by_cases h7 : 5 + p.getD 3 0 ≥ p.length
  · rw [if_pos h7]
    exact derErrNe (by decide)
  rw [if_neg h7]
  by_cases h8 : p.getD (4 + p.getD 3 0) 0 ≠ 0x02
  · rw [if_pos h8]
    exact derErrNe (by decide)
  rw [if_neg h8]
  by_cases h9 : p.getD (5 + p.getD 3 0) 0 = 0
  · rw [if_pos h9]
    exact derErrNe (by decide)
  rw [if_neg h9]
  by_cases h10 : 6 + p.getD 3 0 + p.getD (5 + p.getD 3 0) 0 ≠ p.length
  · rw [if_pos h10]
    exact derErrNe (by decide)
  rw [if_neg h10]
  by_cases h11 : p.getD 4 0 &&& 0x80 ≠ 0
  · rw [if_pos h11]
    exact derErrNe (by decide)
  rw [if_neg h11]
  by_cases h12 : 1 < p.getD 3 0 ∧ p.getD 4 0 = 0 ∧ p.getD 5 0 &&& 0x80 = 0
  · rw [if_pos h12]
    exact derErrNe (by decide)
  rw [if_neg h12]
  by_cases h13 : p.getD (p.getD 3 0 + 6) 0 &&& 0x80 ≠ 0
  · rw [if_pos h13]
    exact derErrNe (by decide)
  rw [if_neg h13]
  by_cases h14 : 1 < p.getD (5 + p.getD 3 0) 0 ∧ p.getD (p.getD 3 0 + 6) 0 = 0 ∧
      p.getD (p.getD 3 0 + 7) 0 &&& 0x80 = 0
  · rw [if_pos h14]
    exact derErrNe (by decide)
  rw [if_neg h14]
  exact fun hc => Except.noConfusion hc

/-- With a valid hash-type byte, `decodeScriptSignature` fails with `e`
exactly when `decode2` fails with `e` on the payload. -/
theorem decodeScriptSignature_error_iff (bf : List ℕ)
    (hv1 : 0 < bf.getLastD 0 &&& 0xFFFFFF7F)
    (hv2 : bf.getLastD 0 &&& 0xFFFFFF7F < 4) (e : DERError) :
    decodeScriptSignature bf = .error e ↔ decode2 bf.dropLast = .error e := by
  simp only [decodeScriptSignature]
  rw [if_neg (by omega)]
  cases hd : decode2 bf.dropLast with
  | error f =>
    rw [exceptErrBind]
    exact ⟨fun hc => by rw [Except.error.inj hc], fun hc => by rw [Except.error.inj hc]⟩
  | ok pr =>
    simp only [exceptOkBind, exceptPure]
    exact iff_of_false (fun hc => Except.noConfusion hc)
      (fun hc => Except.noConfusion hc)

/-- Whenever `decodeScriptSignature` succeeds, the returned `hashType` is
the input's trailing byte, unmodified. -/
theorem decodeScriptSignature_ok_hashType (bf : List ℕ) :
    ∀ r : ScriptSignature, decodeScriptSignature bf = .ok r →
      r.hashType = bf.getLastD 0 := by
  intro r hr
  simp only [decodeScriptSignature] at hr
  by_cases hv : bf.getLastD 0 &&& 0xFFFFFF7F ≤ 0 ∨
      4 ≤ bf.getLastD 0 &&& 0xFFFFFF7F
  · rw [if_pos hv] at hr
    exact Except.noConfusion hr
  · rw [if_neg hv] at hr
    cases hd : decode2 bf.dropLast with
    | error f =>
      rw [hd, exceptErrBind] at hr
      exact Except.noConfusion hr
    | ok pr =>
      rw [hd] at hr
      simp only [exceptOkBind, exceptPure] at hr
      rw [← Except.ok.inj hr]

/-- C6: the decoder reads the trailing byte as `hashType` and fails with
`InvalidHashType` exactly when `hashType & ~0x80` is not strictly between
0 and 4; on success the returned `hashType` is the input's trailing byte
unmodified (in particular the `0x80` bit is preserved).  On an empty
buffer the JavaScript read gives `undefined`, whose masked value is `0`,
matching the `getLastD 0` default here, so the statement covers every
input buffer. -/
theorem der_hashType_check (bf : List ℕ) :
    (decodeScriptSignature bf = .error .invalidHashType ↔
      ¬(0 < bf.getLastD 0 &&& 0xFFFFFF7F ∧ bf.getLastD 0 &&& 0xFFFFFF7F < 4)) ∧
      ∀ r : ScriptSignature, decodeScriptSignature bf = .ok r →
        r.hashType = bf.getLastD 0 := by
  refine ⟨⟨fun herr hc => ?_, fun hc => ?_⟩, decodeScriptSignature_ok_hashType bf⟩
  · exact decode2_ne_invalidHashType bf.dropLast
      ((decodeScriptSignature_error_iff bf hc.1 hc.2 .invalidHashType).mp herr)
  · simp only [decodeScriptSignature]
    rw [if_pos (by omega)]

/-- Witness for C6 at `bf = [0x30, 0x81]`: the trailing byte `0x81` has
`0x81 & ~0x80 = 1`, a valid hash type, so the decoder does not fail with
`InvalidHashType` (it fails later, with `TooShort`). -/
theorem der_hashType_check_witness :
    (decodeScriptSignature [0x30, 0x81] = .error .invalidHashType ↔
      ¬(0 < ([0x30, 0x81] : List ℕ).getLastD 0 &&& 0xFFFFFF7F ∧
        ([0x30, 0x81] : List ℕ).getLastD 0 &&& 0xFFFFFF7F < 4)) ∧
      ∀ r : ScriptSignature, decodeScriptSignature [0x30, 0x81] = .ok r →
        r.hashType = ([0x30, 0x81] : List ℕ).getLastD 0 :=
  der_hashType_check [0x30, 0x81]

/-- C7: with a valid hash-type byte, the decoder fails with `TooShort`
whenever the payload (hash-type byte stripped) is shorter than 8 bytes,
and with `TooLong` whenever it is longer than 72; and — the checks being
an ordered fail-fast pipeline — for buffers passing every check that
precedes the S-length consistency check, it fails with `SLengthInvalid`
exactly when `6 + lenR + lenS` differs from the payload length, where
`lenR = payload[3]` and `lenS = payload[5 + lenR]`. -/
theorem der_length_checks (bf : List ℕ)
    (hv : 0 < bf.getLastD 0 &&& 0xFFFFFF7F ∧ bf.getLastD 0 &&& 0xFFFFFF7F < 4) :
    (bf.dropLast.length < 8 → decodeScriptSignature bf = .error .tooShort) ∧
      (72 < bf.dropLast.length → decodeScriptSignature bf = .error .tooLong) ∧
      (8 ≤ bf.dropLast.length → bf.dropLast.length ≤ 72 →
        bf.dropLast.getD 0 0 = 0x30 →
        bf.dropLast.getD 1 0 = bf.dropLast.length - 2 →
        bf.dropLast.getD 2 0 = 0x02 →
        bf.dropLast.getD 3 0 ≠ 0 →
        4 + bf.dropLast.getD 3 0 + 1 < bf.dropLast.length →
        bf.dropLast.getD (4 + bf.dropLast.getD 3 0) 0 = 0x02 →
        bf.dropLast.getD (5 + bf.dropLast.getD 3 0) 0 ≠ 0 →
        (decodeScriptSignature bf = .error .sLengthInvalid ↔
          6 + bf.dropLast.getD 3 0 + bf.dropLast.getD (5 + bf.dropLast.getD 3 0) 0
            ≠ bf.dropLast.length)) := by
  refine ⟨fun hshort => ?_, fun hlong => ?_, ?_⟩
  · rw [decodeScriptSignature_error_iff bf hv.1 hv.2 .tooShort]
    unfold decode2
    rw [if_pos hshort]
  · rw [decodeScriptSignature_error_iff bf hv.1 hv.2 .tooLong]
    unfold decode2
    rw [if_neg (by omega), if_pos hlong]
  · intro k1 k2 k3 k4 k5 k6 k7 k8 k9
    rw [decodeScriptSignature_error_iff bf hv.1 hv.2 .sLengthInvalid]
    unfold decode2
    rw [if_neg (by omega), if_neg (by omega), if_neg (not_not_intro k3),
        if_neg (not_not_intro k4), if_neg (not_not_intro k5), if_neg k6,
        if_neg (by omega), if_neg (not_not_intro k8), if_neg k9]
    by_cases hs : 6 + bf.dropLast.getD 3 0
        + bf.dropLast.getD (5 + bf.dropLast.getD 3 0) 0 ≠ bf.dropLast.length
    · rw [if_pos hs]
      exact iff_of_true rfl hs
    · rw [if_neg hs]
      refine iff_of_false ?_ hs
      by_cases m1 : bf.dropLast.getD 4 0 &&& 0x80 ≠ 0
      · rw [if_pos m1]
        exact derErrNe (by decide)
      rw [if_neg m1]
      by_cases m2 : 1 < bf.dropLast.getD 3 0 ∧ bf.dropLast.getD 4 0 = 0 ∧
          bf.dropLast.getD 5 0 &&& 0x80 = 0
      · rw [if_pos m2]
        exact derErrNe (by decide)
      rw [if_neg m2]
      by_cases m3 : bf.dropLast.getD (bf.dropLast.getD 3 0 + 6) 0 &&& 0x80 ≠ 0
      · rw [if_pos m3]
        exact derErrNe (by decide)
      rw [if_neg m3]
      by_cases m4 : 1 < bf.dropLast.getD (5 + bf.dropLast.getD 3 0) 0 ∧
          bf.dropLast.getD (bf.dropLast.getD 3 0 + 6) 0 = 0 ∧
          bf.dropLast.getD (bf.dropLast.getD 3 0 + 7) 0 &&& 0x80 = 0
      · rw [if_pos m4]
        exact derErrNe (by decide)
      rw [if_neg m4]
      exact fun hc => Except.noConfusion hc

/-- Witness for C7 at a 9-byte buffer whose payload
`[0x30, 0x06, 0x02, 0x01, 0x01, 0x02, 0x02, 0x01]` passes every check up
to the S-length consistency check, where `6 + 1 + 2 = 9 ≠ 8`. -/
theorem der_length_checks_witness :
    (([0x30, 0x06, 0x02, 0x01, 0x01, 0x02, 0x02, 0x01, 0x01] : List ℕ).dropLast.length < 8 →
      decodeScriptSignature [0x30, 0x06, 0x02, 0x01, 0x01, 0x02, 0x02, 0x01, 0x01]
        = .error .tooShort) ∧
      (72 < ([0x30, 0x06, 0x02, 0x01, 0x01, 0x02, 0x02, 0x01, 0x01] : List ℕ).dropLast.length →
        decodeScriptSignature [0x30, 0x06, 0x02, 0x01, 0x01, 0x02, 0x02, 0x01, 0x01]
          = .error .tooLong) ∧
      (8 ≤ ([0x30, 0x06, 0x02, 0x01, 0x01, 0x02, 0x02, 0x01, 0x01] : List ℕ).dropLast.length →
        ([0x30, 0x06, 0x02, 0x01, 0x01, 0x02, 0x02, 0x01, 0x01] : List ℕ).dropLast.length ≤ 72 →
        ([0x30, 0x06, 0x02, 0x01, 0x01, 0x02, 0x02, 0x01, 0x01] : List ℕ).dropLast.getD 0 0 = 0x30 →
        ([0x30, 0x06, 0x02, 0x01, 0x01, 0x02, 0x02, 0x01, 0x01] : List ℕ).dropLast.getD 1 0
          = ([0x30, 0x06, 0x02, 0x01, 0x01, 0x02, 0x02, 0x01, 0x01] : List ℕ).dropLast.length - 2 →
        ([0x30, 0x06, 0x02, 0x01, 0x01, 0x02, 0x02, 0x01, 0x01] : List ℕ).dropLast.getD 2 0 = 0x02 →
        ([0x30, 0x06, 0x02, 0x01, 0x01, 0x02, 0x02, 0x01, 0x01] : List ℕ).dropLast.getD 3 0 ≠ 0 →
        4 + ([0x30, 0x06, 0x02, 0x01, 0x01, 0x02, 0x02, 0x01, 0x01] : List ℕ).dropLast.getD 3 0 + 1
          < ([0x30, 0x06, 0x02, 0x01, 0x01, 0x02, 0x02, 0x01, 0x01] : List ℕ).dropLast.length →
        ([0x30, 0x06, 0x02, 0x01, 0x01, 0x02, 0x02, 0x01, 0x01] : List ℕ).dropLast.getD
            (4 + ([0x30, 0x06, 0x02, 0x01, 0x01, 0x02, 0x02, 0x01, 0x01] : List ℕ).dropLast.getD 3 0) 0
          = 0x02 →
        ([0x30, 0x06, 0x02, 0x01, 0x01, 0x02, 0x02, 0x01, 0x01] : List ℕ).dropLast.getD
            (5 + ([0x30, 0x06, 0x02, 0x01, 0x01, 0x02, 0x02, 0x01, 0x01] : List ℕ).dropLast.getD 3 0) 0
          ≠ 0 →
        (decodeScriptSignature [0x30, 0x06, 0x02, 0x01, 0x01, 0x02, 0x02, 0x01, 0x01]
            = .error .sLengthInvalid ↔
          6 + ([0x30, 0x06, 0x02, 0x01, 0x01, 0x02, 0x02, 0x01, 0x01] : List ℕ).dropLast.getD 3 0
              + ([0x30, 0x06, 0x02, 0x01, 0x01, 0x02, 0x02, 0x01, 0x01] : List ℕ).dropLast.getD
                  (5 + ([0x30, 0x06, 0x02, 0x01, 0x01, 0x02, 0x02, 0x01, 0x01] : List ℕ).dropLast.getD 3 0) 0
            ≠ ([0x30, 0x06, 0x02, 0x01, 0x01, 0x02, 0x02, 0x01, 0x01] : List ℕ).dropLast.length)) :=
  der_length_checks [0x30, 0x06, 0x02, 0x01, 0x01, 0x02, 0x02, 0x01, 0x01] (by decide)

/-- C8: on a buffer passing every structural check the decoder succeeds,
returning the trailing byte as `hashType` together with a 64-byte
signature: `fromDER` of R followed by `fromDER` of S, each obtained from
the raw big-endian bytes (`R = payload[4 .. 4+lenR)`,
`S = payload[6+lenR .. 6+lenR+lenS)`) by stripping a single leading
`0x00` sign-guard byte if present, then left-zero-padding to 32 bytes
(or keeping only the low-order 32 bytes when longer). -/
theorem der_decode_success (bf : List ℕ)
    (hv1 : 0 < bf.getLastD 0 &&& 0xFFFFFF7F)
    (hv2 : bf.getLastD 0 &&& 0xFFFFFF7F < 4)
    (k1 : 8 ≤ bf.dropLast.length) (k2 : bf.dropLast.length ≤ 72)
    (k3 : bf.dropLast.getD 0 0 = 0x30)
    (k4 : bf.dropLast.getD 1 0 = bf.dropLast.length - 2)
    (k5 : bf.dropLast.getD 2 0 = 0x02)
    (k6 : bf.dropLast.getD 3 0 ≠ 0)
    (k7 : 4 + bf.dropLast.getD 3 0 + 1 < bf.dropLast.length)
    (k8 : bf.dropLast.getD (4 + bf.dropLast.getD 3 0) 0 = 0x02)
    (k9 : bf.dropLast.getD (5 + bf.dropLast.getD 3 0) 0 ≠ 0)
    (k10 : 6 + bf.dropLast.getD 3 0 + bf.dropLast.getD (5 + bf.dropLast.getD 3 0) 0
      = bf.dropLast.length)
    (k11 : bf.dropLast.getD 4 0 &&& 0x80 = 0)
    (k12 : ¬(1 < bf.dropLast.getD 3 0 ∧ bf.dropLast.getD 4 0 = 0 ∧
      bf.dropLast.getD 5 0 &&& 0x80 = 0))
    (k13 : bf.dropLast.getD (bf.dropLast.getD 3 0 + 6) 0 &&& 0x80 = 0)
    (k14 : ¬(1 < bf.dropLast.getD (5 + bf.dropLast.getD 3 0) 0 ∧
      bf.dropLast.getD (bf.dropLast.getD 3 0 + 6) 0 = 0 ∧
      bf.dropLast.getD (bf.dropLast.getD 3 0 + 7) 0 &&& 0x80 = 0)) :
    decodeScriptSignature bf = .ok
        ⟨fromDER ((bf.dropLast.drop 4).take (bf.dropLast.getD 3 0))
           ++ fromDER ((bf.dropLast.drop (6 + bf.dropLast.getD 3 0)).take
                (bf.dropLast.getD (5 + bf.dropLast.getD 3 0) 0)),
         bf.getLastD 0⟩ ∧
      (fromDER ((bf.dropLast.drop 4).take (bf.dropLast.getD 3 0))
          ++ fromDER ((bf.dropLast.drop (6 + bf.dropLast.getD 3 0)).take
               (bf.dropLast.getD (5 + bf.dropLast.getD 3 0) 0))).length = 64 ∧
      (fromDER ((bf.dropLast.drop 4).take (bf.dropLast.getD 3 0))
          ++ fromDER ((bf.dropLast.drop (6 + bf.dropLast.getD 3 0)).take
               (bf.dropLast.getD (5 + bf.dropLast.getD 3 0) 0))).take 32
        = fromDER ((bf.dropLast.drop 4).take (bf.dropLast.getD 3 0)) ∧
      (fromDER ((bf.dropLast.drop 4).take (bf.dropLast.getD 3 0))
          ++ fromDER ((bf.dropLast.drop (6 + bf.dropLast.getD 3 0)).take
               (bf.dropLast.getD (5 + bf.dropLast.getD 3 0) 0))).drop 32
        = fromDER ((bf.dropLast.drop (6 + bf.dropLast.getD 3 0)).take
            (bf.dropLast.getD (5 + bf.dropLast.getD 3 0) 0)) := by
  have htake : (bf.dropLast.drop (6 + bf.dropLast.getD 3 0)).take
      (bf.dropLast.getD (5 + bf.dropLast.getD 3 0) 0)
      = bf.dropLast.drop (6 + bf.dropLast.getD 3 0) :=
    List.take_of_length_le (by simp only [List.length_drop]; omega)
  have hdec2 : decode2 bf.dropLast
      = .ok ((bf.dropLast.drop 4).take (bf.dropLast.getD 3 0),
             bf.dropLast.drop (6 + bf.dropLast.getD 3 0)) := by
    unfold decode2
    rw [if_neg (by omega), if_neg (by omega), if_neg (not_not_intro k3),
        if_neg (not_not_intro k4), if_neg (not_not_intro k5), if_neg k6,
        if_neg (by omega), if_neg (not_not_intro k8), if_neg k9,
        if_neg (not_not_intro k10), if_neg (not_not_intro k11), if_neg k12,
        if_neg (not_not_intro k13), if_neg k14]
  refine ⟨?_, ?_, List.take_left' (fromDER_length _),
          List.drop_left' (fromDER_length _)⟩
  · simp only [decodeScriptSignature]
    rw [if_neg (by omega), hdec2, exceptOkBind, exceptPure, htake]
  · rw [List.length_append, fromDER_length, fromDER_length]

/-- A minimal structurally valid DER signature buffer:
`0x30 0x06 0x02 0x01 0x01 0x02 0x01 0x01` (R = S = `[0x01]`) followed by
hash-type byte `0x01` (SIGHASH_ALL). -/
def derValidExample : List ℕ := [0x30, 0x06, 0x02, 0x01, 0x01, 0x02, 0x01, 0x01, 0x01]

/-- Witness for C8 at `derValidExample`. -/
theorem der_decode_success_witness :
    decodeScriptSignature derValidExample = .ok
        ⟨fromDER ((derValidExample.dropLast.drop 4).take
             (derValidExample.dropLast.getD 3 0))
           ++ fromDER ((derValidExample.dropLast.drop
                (6 + derValidExample.dropLast.getD 3 0)).take
                (derValidExample.dropLast.getD (5 + derValidExample.dropLast.getD 3 0) 0)),
         derValidExample.getLastD 0⟩ ∧
      (fromDER ((derValidExample.dropLast.drop 4).take
            (derValidExample.dropLast.getD 3 0))
          ++ fromDER ((derValidExample.dropLast.drop
               (6 + derValidExample.dropLast.getD 3 0)).take
               (derValidExample.dropLast.getD
                 (5 + derValidExample.dropLast.getD 3 0) 0))).length = 64 ∧
      (fromDER ((derValidExample.dropLast.drop 4).take
            (derValidExample.dropLast.getD 3 0))
          ++ fromDER ((derValidExample.dropLast.drop
               (6 + derValidExample.dropLast.getD 3 0)).take
               (derValidExample.dropLast.getD
                 (5 + derValidExample.dropLast.getD 3 0) 0))).take 32
        = fromDER ((derValidExample.dropLast.drop 4).take
            (derValidExample.dropLast.getD 3 0)) ∧
      (fromDER ((derValidExample.dropLast.drop 4).take
            (derValidExample.dropLast.getD 3 0))
          ++ fromDER ((derValidExample.dropLast.drop
               (6 + derValidExample.dropLast.getD 3 0)).take
               (derValidExample.dropLast.getD
                 (5 + derValidExample.dropLast.getD 3 0) 0))).drop 32
        = fromDER ((derValidExample.dropLast.drop
            (6 + derValidExample.dropLast.getD 3 0)).take
            (derValidExample.dropLast.getD
              (5 + derValidExample.dropLast.getD 3 0) 0)) :=
  der_decode_success derValidExample (by decide) (by decide) (by decide) (by decide)
    (by decide) (by decide) (by decide) (by decide) (by decide) (by decide)
    (by decide) (by decide) (by decide) (by decide) (by decide) (by decide)
